import Mathlib

/-!
Verification of the SafeSpeak pipeline orchestrator and audio playback
state machine.  This file is a shallow embedding of the orchestration
logic of the main React component: input staging of typed and
file-extracted text, the translate-then-synthesize pipeline
(`handleTranslateAndSpeak`), and the Web Audio playback subsystem
(`getAudioContext`, `playAudio`, `stopAudio`, `handleReplay`, and the
unmount cleanup).  Text is modelled as a list of characters (matching
the sequence-of-code-units view that `length` and `slice` take in the
source); a decoded audio buffer is modelled by a numeric handle; the
two external collaborators (translation, speech synthesis) are oracle
parameters returning `Except`.
-/

set_option autoImplicit false

namespace SafeSpeak

/-- The closed set of target languages (types.ts, `TargetLanguage`). -/
inductive TargetLanguage
  | english
  | chinese
  | vietnamese
  | russian
  | uzbek
deriving DecidableEq

/-- The externally visible outcome of one pipeline invocation
(types.ts, `TranslationResult`).  `audioBuffer` is the decoded audio
handle, `none` while (or forever if) synthesis has not produced audio. -/
structure TranslationResult where
  originalText : List Char
  translatedText : List Char
  targetLanguage : TargetLanguage
  audioBuffer : Option Nat
deriving DecidableEq

/-- The shared application state (types.ts, `AppState`). -/
structure AppState where
  inputText : List Char
  selectedLanguage : TargetLanguage
  isProcessing : Bool
  result : Option TranslationResult
  error : Option String
deriving DecidableEq

/-- Input length bound (`MAX_INPUT_LENGTH`, line 21 of the component). -/
def MAX_INPUT_LENGTH : Nat := 10000

/-- JavaScript `String.prototype.trim`: whitespace stripped from both
ends of the character sequence. -/
def trimChars (l : List Char) : List Char :=
  ((l.dropWhile Char.isWhitespace).reverse.dropWhile Char.isWhitespace).reverse

/-- Error message for an empty input (line 55; stands for the Korean UI
text shown there). -/
def emptyInputMsg : String := "안전교육 내용을 입력해주세요."

/-- Error message for an over-long typed input (lines 59-64); the UI
message interpolates the offending length, modelled by appending it. -/
def typedTooLongMsg (n : Nat) : String :=
  "입력 텍스트가 너무 깁니다: " ++ toString n

/-- Error message when extracted file text was truncated (line 209). -/
def fileTooLongMsg : String := "파일 내용이 너무 길어 앞부분만 불러왔습니다."

/-- Fallback of `err.message` for a translation failure (line 115). -/
def translationErrMsg (e : String) : String :=
  if e = "" then "처리 중 오류가 발생했습니다." else e

/-- Error message for a synthesis failure after a successful
translation (line 107); keeps the collaborator's message as suffix. -/
def synthesisErrMsg (e : String) : String :=
  "번역은 완료되었으나 음성 생성에 실패했습니다: " ++ e

/-- Staging of successfully extracted file text (`handleFile`,
lines 205-216): text longer than `MAX_INPUT_LENGTH` is truncated with
`slice(0, MAX_INPUT_LENGTH)` and an overflow message is reported;
otherwise the text is staged unchanged. -/
def stageExtractedText (extracted : List Char) (st : AppState) : AppState :=
  if MAX_INPUT_LENGTH < extracted.length then
    { st with inputText := extracted.take MAX_INPUT_LENGTH
              error := some fileTooLongMsg }
  else
    { st with inputText := extracted }

/-- The `handleFile` state flow around a successful extraction: line 201
first clears `error` and `result`, then the extracted text is staged. -/
def handleFileExtractSuccess (extracted : List Char) (st : AppState) : AppState :=
  stageExtractedText extracted { st with error := none, result := none }

/-- Calls made to the two external collaborators during a run. -/
inductive ServiceCall
  | translateCall (text : List Char) (lang : TargetLanguage)
  | synthesizeCall (text : List Char)
deriving DecidableEq

/-- Commands the pipeline issues to the audio subsystem. -/
inductive AudioAction
  | stopAct
  | getCtxAct
  | playAct (buffer : Nat)
deriving DecidableEq

/-- Outcome of the synchronous prefix of `handleTranslateAndSpeak`. -/
inductive StartResult
  | rejected (st : AppState)
  | proceed (st : AppState)
deriving DecidableEq

/-- Synchronous prefix of `handleTranslateAndSpeak` (lines 54-68): the
empty-input guard, the typed-input length guard (each an early return
that only sets `error`), and otherwise the start update that sets
`isProcessing` and clears `error` and `result` (the following
`stopAudio()` call is recorded in the run's audio-action log). -/
def stepStart (st : AppState) : StartResult :=
  if trimChars st.inputText = [] then
    .rejected { st with error := some emptyInputMsg }
  else if MAX_INPUT_LENGTH < st.inputText.length then
    .rejected { st with error := some (typedTooLongMsg st.inputText.length) }
  else
    .proceed { st with isProcessing := true, error := none, result := none }

/-- State update run when a pipeline invocation's translation call
resolves successfully (lines 75-83): the partial result is published
with `audioBuffer = null`; `isProcessing` stays `true`.  `text` and
`lang` are the values captured when the invocation started. -/
def stepTranslateOk (text : List Char) (lang : TargetLanguage)
    (tr : List Char) (st : AppState) : AppState :=
  { st with result := some { originalText := text
                             translatedText := tr
                             targetLanguage := lang
                             audioBuffer := none } }

/-- State update run when a pipeline invocation's translation call
fails (lines 111-117). -/
def stepTranslateErr (e : String) (st : AppState) : AppState :=
  { st with isProcessing := false, error := some (translationErrMsg e) }

/-- State update run when synthesis resolves successfully
(lines 92-96): clear `isProcessing` and attach the decoded buffer to
the current result if one is present. -/
def stepSynthOk (buf : Nat) (st : AppState) : AppState :=
  { st with isProcessing := false
            result := st.result.map fun r => { r with audioBuffer := some buf } }

/-- State update run when synthesis fails after a successful
translation (lines 101-109): the result is kept, `isProcessing` is
cleared, a distinct warning is surfaced. -/
def stepSynthErr (e : String) (st : AppState) : AppState :=
  { st with isProcessing := false, error := some (synthesisErrMsg e) }

/-- Everything one sequential execution of `handleTranslateAndSpeak`
produces: the final shared state, the collaborator calls made, and the
commands issued to the audio subsystem. -/
structure RunOutcome where
  final : AppState
  calls : List ServiceCall
  audio : List AudioAction
deriving DecidableEq

/-- One sequential (uninterleaved) execution of
`handleTranslateAndSpeak` (lines 53-118), with the two collaborators
supplied as oracles.  Mirrors the source: guards, `stopAudio()`,
translation, publication of the partial result, `getAudioContext()`,
synthesis, and on success the auto-play request. -/
def runPipeline
    (translate : List Char → TargetLanguage → Except String (List Char))
    (synthesize : List Char → Except String Nat)
    (st : AppState) : RunOutcome :=
  match stepStart st with
  | .rejected st' => ⟨st', [], []⟩
  | .proceed st1 =>
      let text := st.inputText
      let lang := st.selectedLanguage
      match translate text lang with
      | .error e => ⟨stepTranslateErr e st1, [.translateCall text lang], [.stopAct]⟩
      | .ok tr =>
          let st2 := stepTranslateOk text lang tr st1
          match synthesize tr with
          | .error e =>
              ⟨stepSynthErr e st2,
               [.translateCall text lang, .synthesizeCall tr],
               [.stopAct, .getCtxAct]⟩
          | .ok buf =>
              ⟨stepSynthOk buf st2,
               [.translateCall text lang, .synthesizeCall tr],
               [.stopAct, .getCtxAct, .playAct buf]⟩

/-- The language-selection click handler (line 391): selecting a target
language stores it and clears any previously published result. -/
def selectLanguage (lang : TargetLanguage) (st : AppState) : AppState :=
  { st with selectedLanguage := lang, result := none }

/-- The run state of the audio device context (the Web Audio
`AudioContext.state` values). -/
inductive CtxRunState
  | running
  | suspended
  | closed
deriving DecidableEq

/-- One `AudioBufferSourceNode` ever created by `playAudio`: its
identity, the buffer bound to it, whether its `onended` callback is
still attached, and whether it has been started and neither stopped
nor finished (it is playing through the device). -/
structure Source where
  id : Nat
  buffer : Nat
  onendedAttached : Bool
  live : Bool
deriving DecidableEq

/-- The playback subsystem's state: `ctx` is `audioContextRef.current`
(`none` before lazy creation), `boundSource` is
`audioSourceRef.current` (by source id), `sources` records every
source ever created, `isPlaying` and `isPaused` are the two React
flags, and `nextId` supplies fresh source identities. -/
structure AudioState where
  ctx : Option CtxRunState
  boundSource : Option Nat
  sources : List Source
  isPlaying : Bool
  isPaused : Bool
  nextId : Nat
deriving DecidableEq

/-- Line 164: `audioSourceRef.current.onended = null` — detach the
natural-end callback of the bound source. -/
def detachOnended (sid : Nat) (s : AudioState) : AudioState :=
  { s with sources := s.sources.map fun x =>
      if x.id = sid then { x with onendedAttached := false } else x }

/-- Line 165: `audioSourceRef.current.stop()` — halt the bound source
(it stops being live); errors from an already-stopped source are
swallowed by the surrounding try/catch. -/
def haltSource (sid : Nat) (s : AudioState) : AudioState :=
  { s with sources := s.sources.map fun x =>
      if x.id = sid then { x with live := false } else x }

/-- `stopAudio` (lines 160-179): if a source is bound, first detach its
natural-end callback, then halt it and discard the handle; then resume
the device context if it is suspended; finally clear both flags. -/
def stopAudio (s : AudioState) : AudioState :=
  let s1 :=
    match s.boundSource with
    | some sid => { haltSource sid (detachOnended sid s) with boundSource := none }
    | none => s
  let s2 := if s1.ctx = some CtxRunState.suspended
            then { s1 with ctx := some CtxRunState.running } else s1
  { s2 with isPlaying := false, isPaused := false }

/-- `getAudioContext` (lines 44-51): create the device context lazily
on first use, afterwards return the existing one. -/
def getAudioContext (s : AudioState) : AudioState :=
  if s.ctx = none then { s with ctx := some CtxRunState.running } else s

/-- `playAudio` (lines 120-142): stop any existing audio, resume the
context if suspended, create a fresh source bound to `b` with its
natural-end callback attached, start it, record it as the bound
source, and set the playing flag. -/
def playAudio (b : Nat) (s : AudioState) : AudioState :=
  let s1 := stopAudio s
  let s2 := if s1.ctx = some CtxRunState.suspended
            then { s1 with ctx := some CtxRunState.running } else s1
  { s2 with sources := s2.sources ++ [⟨s2.nextId, b, true, true⟩]
            boundSource := some s2.nextId
            nextId := s2.nextId + 1
            isPlaying := true
            isPaused := false }

/-- The hardware natural-end notification for source `sid`: the source
finishes playing, and the `onended` callback (lines 132-136, which
clears both flags) runs only if it is still attached. -/
def naturalEnd (sid : Nat) (s : AudioState) : AudioState :=
  match s.sources.find? (fun x => x.id == sid) with
  | none => s
  | some src =>
      let s1 := { s with sources := s.sources.map fun x =>
          if x.id = sid then { x with live := false } else x }
      if src.onendedAttached then { s1 with isPlaying := false, isPaused := false }
      else s1

/-- Web Audio `AudioContext.close()`: closing transitions to `closed`;
per the Web Audio specification it fails with `InvalidStateError` when
the context is already closed. -/
def closeCtx : CtxRunState → Except String CtxRunState
  | .closed => .error "InvalidStateError"
  | _ => .ok .closed

/-- The unmount cleanup (lines 260-267): `stopAudio()`, then close the
device context if one was ever created. -/
def cleanup (s : AudioState) : Except String AudioState :=
  let s1 := stopAudio s
  match s1.ctx with
  | none => .ok s1
  | some c => (closeCtx c).map fun c' => { s1 with ctx := some c' }

/-- `handleReplay` (lines 181-185): if the published result carries a
decoded buffer and the device context exists, replay that buffer via
`playAudio`; no collaborator call is made (second component). -/
def handleReplay (app : AppState) (au : AudioState) :
    AudioState × List ServiceCall :=
  match app.result with
  | some r =>
      match r.audioBuffer, au.ctx with
      | some b, some _ => (playAudio b au, [])
      | _, _ => (au, [])
  | none => (au, [])

/-- Visibility of the replay control in the rendered output
(lines 448, 468, 482-515): it is shown only when a result with a
decoded buffer exists and playback is neither playing nor paused. -/
def replayButtonVisible (app : AppState) (playing paused : Bool) : Bool :=
  match app.result with
  | some r => r.audioBuffer.isSome && !playing && !paused
  | none => false

/-- Sources currently playing through the device. -/
def liveSources (s : AudioState) : List Source :=
  s.sources.filter fun x => x.live

/-- Buffers of the currently playing sources. -/
def liveBuffers (s : AudioState) : List Nat :=
  (liveSources s).map fun x => x.buffer

/-- Well-formedness of a playback state: source identities are distinct
and below `nextId`, and any live source is the bound one.  This holds
in every reachable state (the initial state has no sources) and is
preserved by the operations. -/
def wf (s : AudioState) : Prop :=
  (s.sources.map fun x => x.id).Nodup ∧
  (∀ x ∈ s.sources, x.id < s.nextId) ∧
  (∀ x ∈ s.sources, x.live = true → s.boundSource = some x.id)

instance (s : AudioState) : Decidable (wf s) := by
  unfold wf
  infer_instance

/-- The playback state at component mount: no context, no sources. -/
def initAudio : AudioState :=
  ⟨none, none, [], false, false, 0⟩

/-- Normal form of the context after `stopAudio`'s resume-if-suspended
step (line 173-175). -/
def resumeIfSuspended : Option CtxRunState → Option CtxRunState
  | some .suspended => some .running
  | some .running => some .running
  | some .closed => some .closed
  | none => none

/-- Normal form of the source list after `stopAudio`. -/
def stoppedSources : Option Nat → List Source → List Source
  | none, l => l
  | some sid, l => l.map fun x =>
      if x.id = sid then { x with onendedAttached := false, live := false } else x

/-- A small well-formed application state used to instantiate theorems
on concrete inputs. -/
def stW : AppState := ⟨['a'], .chinese, false, none, none⟩

/-- The state produced by a successful `stepStart` from `stW`. -/
def stP : AppState := ⟨['a'], .chinese, true, none, none⟩

/-- A typed input one character over the limit. -/
def longTyped : AppState := ⟨List.replicate 10001 'a', .chinese, false, none, none⟩

/-- Oracle: translation collaborator that fails. -/
def trBoom : List Char → TargetLanguage → Except String (List Char) :=
  fun _ _ => .error "boom"

/-- Oracle: translation collaborator that returns a fixed text. -/
def trX : List Char → TargetLanguage → Except String (List Char) :=
  fun _ _ => .ok ['X']

/-- Oracle: synthesis collaborator that fails. -/
def synBoom : List Char → Except String Nat := fun _ => .error "noaudio"

/-- Oracle: synthesis collaborator that returns buffer handle 7. -/
def syn7 : List Char → Except String Nat := fun _ => .ok 7

/-- An application state holding a published result with decoded
audio buffer 7. -/
def replayApp : AppState :=
  ⟨['a'], .chinese, false, some ⟨['a'], ['X'], .chinese, some 7⟩, none⟩

/-- A playback state in which source 0 is bound and playing. -/
def replayAu : AudioState :=
  ⟨some .running, some 0, [⟨0, 7, true, true⟩], true, false, 1⟩

/-- A playback state with a context but no bound source. -/
def replayAuIdle : AudioState := ⟨some .running, none, [], false, false, 0⟩

/-- A playback state whose context has been closed. -/
def auClosed : AudioState := ⟨some .closed, none, [], false, false, 0⟩

theorem dropWhile_ws_replicate_a (n : Nat) :
    List.dropWhile Char.isWhitespace (List.replicate n 'a') = List.replicate n 'a' := by
  cases n with
  | zero => rfl
  | succ m =>
      rw [List.replicate_succ, List.dropWhile_cons]
      have h : Char.isWhitespace 'a' = false := by decide
      rw [h]
      simp

theorem trimChars_replicate_a (n : Nat) :
    trimChars (List.replicate n 'a') = List.replicate n 'a' := by
  unfold trimChars
  rw [dropWhile_ws_replicate_a, List.reverse_replicate, dropWhile_ws_replicate_a,
    List.reverse_replicate]

theorem stepStart_proceed_of_guards (st : AppState)
    (htrim : trimChars st.inputText ≠ [])
    (hlen : st.inputText.length ≤ MAX_INPUT_LENGTH) :
    stepStart st = .proceed { st with isProcessing := true, error := none, result := none } := by
  unfold stepStart
  rw [if_neg htrim, if_neg (Nat.not_lt.mpr hlen)]

/-- C1 counterexample: a typed input of 10001 characters is rejected by
the pipeline entry guard with an error — the pipeline makes no
collaborator call and the staged text is left at 10001 characters, not
truncated to the maximum length.  This refutes the claim that staging
always truncates over-long text instead of rejecting it. -/
theorem typed_overflow_rejected_not_truncated :
    MAX_INPUT_LENGTH < longTyped.inputText.length ∧
    runPipeline trBoom synBoom longTyped =
      ⟨{ longTyped with error := some (typedTooLongMsg 10001) }, [], []⟩ ∧
    ({ longTyped with error := some (typedTooLongMsg 10001) }).inputText.length ≠
      MAX_INPUT_LENGTH := by
  have hlen : longTyped.inputText.length = 10001 := by
    show (List.replicate 10001 'a').length = 10001
    exact List.length_replicate 10001 'a'
  have htrim : trimChars longTyped.inputText ≠ [] := by
    show trimChars (List.replicate 10001 'a') ≠ []
    rw [trimChars_replicate_a]
    intro h
    have hh := congrArg List.length h
    rw [List.length_replicate] at hh
    exact absurd hh (by norm_num)
  have hstep : stepStart longTyped =
      .rejected { longTyped with error := some (typedTooLongMsg 10001) } := by
    unfold stepStart
    rw [if_neg htrim, if_pos (by rw [hlen]; norm_num [MAX_INPUT_LENGTH]), hlen]
  refine ⟨by rw [hlen]; norm_num [MAX_INPUT_LENGTH], ?_, ?_⟩
  · unfold runPipeline
    rw [hstep]
  · show longTyped.inputText.length ≠ MAX_INPUT_LENGTH
    rw [hlen]
    norm_num [MAX_INPUT_LENGTH]

/-- C1 (amended): staging of extracted file text truncates over-long
text to exactly `MAX_INPUT_LENGTH` and reports an overflow message,
and stages text within the limit unchanged; an over-long typed input,
however, is rejected at the pipeline entry with an error and is not
truncated. -/
theorem staging_length_policy :
    (∀ (extracted : List Char) (st : AppState),
       (handleFileExtractSuccess extracted st).inputText =
         if MAX_INPUT_LENGTH < extracted.length then extracted.take MAX_INPUT_LENGTH
         else extracted) ∧
    (∀ (extracted : List Char) (st : AppState), MAX_INPUT_LENGTH < extracted.length →
       (handleFileExtractSuccess extracted st).inputText.length = MAX_INPUT_LENGTH ∧
       (handleFileExtractSuccess extracted st).error = some fileTooLongMsg) ∧
    (∀ (extracted : List Char) (st : AppState), extracted.length ≤ MAX_INPUT_LENGTH →
       (handleFileExtractSuccess extracted st).inputText = extracted ∧
       (handleFileExtractSuccess extracted st).error = none) ∧
    (∀ st : AppState, MAX_INPUT_LENGTH < st.inputText.length →
       trimChars st.inputText ≠ [] →
       stepStart st =
         .rejected { st with error := some (typedTooLongMsg st.inputText.length) }) := by
  refine ⟨?_, ?_, ?_, ?_⟩
  · intro extracted st
    unfold handleFileExtractSuccess stageExtractedText
    by_cases h : MAX_INPUT_LENGTH < extracted.length <;> simp [h]
  · intro extracted st h
    unfold handleFileExtractSuccess stageExtractedText
    rw [if_pos h]
    refine ⟨?_, rfl⟩
    show (extracted.take MAX_INPUT_LENGTH).length = MAX_INPUT_LENGTH
    rw [List.length_take]
    omega
  · intro extracted st h
    unfold handleFileExtractSuccess stageExtractedText
    rw [if_neg (Nat.not_lt.mpr h)]
    exact ⟨rfl, rfl⟩
  · intro st hl htrim
    unfold stepStart
    rw [if_neg htrim, if_pos hl]

/-- Witness for `staging_length_policy` at concrete inputs. -/
theorem staging_length_policy_witness :
    ((handleFileExtractSuccess ['a'] stW).inputText = ['a'] ∧
     (handleFileExtractSuccess ['a'] stW).error = none) ∧
    stepStart longTyped =
      .rejected { longTyped with error := some (typedTooLongMsg longTyped.inputText.length) } := by
  constructor
  · exact staging_length_policy.2.2.1 ['a'] stW (by norm_num [MAX_INPUT_LENGTH])
  · refine staging_length_policy.2.2.2 longTyped ?_ ?_
    · show MAX_INPUT_LENGTH < (List.replicate 10001 'a').length
      rw [List.length_replicate]
      norm_num [MAX_INPUT_LENGTH]
    · show trimChars (List.replicate 10001 'a') ≠ []
      rw [trimChars_replicate_a]
      intro h
      have hh := congrArg List.length h
      rw [List.length_replicate] at hh
      exact absurd hh (by norm_num)

/-- C2 counterexample: two interleaved invocations.  The first run
starts from `stW` (producing `stP`), the second run starts while the
first is awaiting translation (producing `stP` again), and then the
first run's translation resolution still mutates the shared state the
second run is using — the published result becomes the superseded
run's translation.  The code consults no sequence token. -/
theorem superseded_run_mutates_state :
    stepStart stW = .proceed stP ∧
    stepStart stP = .proceed stP ∧
    stepTranslateOk stW.inputText stW.selectedLanguage ['X'] stP ≠ stP ∧
    (stepTranslateOk stW.inputText stW.selectedLanguage ['X'] stP).result =
      some ⟨stW.inputText, ['X'], stW.selectedLanguage, none⟩ := by
  decide

/-- C2 (amended): the consumer applies a resolving run's events
unconditionally — a resolved translation always overwrites the
published result and a resolved synthesis outcome always clears the
processing flag, with no token or staleness check that would discard
events of a superseded invocation.  The only supersession the code
performs is that a new run clears `result`/`error` and stops audio
when it starts. -/
theorem resolution_events_unconditional (st : AppState) (text tr : List Char)
    (lang : TargetLanguage) (buf : Nat) (e : String) :
    (stepTranslateOk text lang tr st).result = some ⟨text, tr, lang, none⟩ ∧
    (stepTranslateErr e st).isProcessing = false ∧
    (stepSynthOk buf st).isProcessing = false ∧
    (stepSynthErr e st).isProcessing = false ∧
    (stepSynthErr e st).error = some (synthesisErrMsg e) :=
  ⟨rfl, rfl, rfl, rfl, rfl⟩

/-- C3: when the guards pass and the translation collaborator fails,
the run ends with a translation-failure message, no published result,
the processing flag false, and the synthesis collaborator is never
called (the call log holds exactly the translation call). -/
theorem translation_failure_aborts_pipeline
    (translate : List Char → TargetLanguage → Except String (List Char))
    (synthesize : List Char → Except String Nat)
    (st : AppState) (e : String)
    (htrim : trimChars st.inputText ≠ [])
    (hlen : st.inputText.length ≤ MAX_INPUT_LENGTH)
    (htr : translate st.inputText st.selectedLanguage = .error e) :
    (runPipeline translate synthesize st).final.result = none ∧
    (runPipeline translate synthesize st).final.isProcessing = false ∧
    (runPipeline translate synthesize st).final.error = some (translationErrMsg e) ∧
    (runPipeline translate synthesize st).calls =
      [ServiceCall.translateCall st.inputText st.selectedLanguage] := by
  have hstep := stepStart_proceed_of_guards st htrim hlen
  unfold runPipeline
  simp only [hstep, htr]
  simp [stepTranslateErr]

/-- Witness for `translation_failure_aborts_pipeline` at a concrete
input and a failing translation oracle. -/
theorem translation_failure_aborts_pipeline_witness :
    trimChars stW.inputText ≠ [] ∧
    stW.inputText.length ≤ MAX_INPUT_LENGTH ∧
    ((runPipeline trBoom synBoom stW).final.result = none ∧
     (runPipeline trBoom synBoom stW).final.isProcessing = false ∧
     (runPipeline trBoom synBoom stW).final.error = some (translationErrMsg "boom") ∧
     (runPipeline trBoom synBoom stW).calls =
       [ServiceCall.translateCall stW.inputText stW.selectedLanguage]) :=
  ⟨by decide, by decide,
   translation_failure_aborts_pipeline trBoom synBoom stW "boom" (by decide) (by decide) rfl⟩

/-- C4: when translation succeeds and synthesis then fails, the
published result keeps the successful translation with a null decoded
buffer, the processing flag is cleared, and a distinct synthesis
warning is surfaced. -/
theorem synthesis_failure_preserves_translation
    (translate : List Char → TargetLanguage → Except String (List Char))
    (synthesize : List Char → Except String Nat)
    (st : AppState) (tr : List Char) (e : String)
    (htrim : trimChars st.inputText ≠ [])
    (hlen : st.inputText.length ≤ MAX_INPUT_LENGTH)
    (htr : translate st.inputText st.selectedLanguage = .ok tr)
    (hsyn : synthesize tr = .error e) :
    (runPipeline translate synthesize st).final.result =
      some ⟨st.inputText, tr, st.selectedLanguage, none⟩ ∧
    (runPipeline translate synthesize st).final.isProcessing = false ∧
    (runPipeline translate synthesize st).final.error = some (synthesisErrMsg e) ∧
    (runPipeline translate synthesize st).calls =
      [ServiceCall.translateCall st.inputText st.selectedLanguage,
       ServiceCall.synthesizeCall tr] := by
  have hstep := stepStart_proceed_of_guards st htrim hlen
  unfold runPipeline
  simp only [hstep, htr, hsyn]
  simp [stepTranslateOk, stepSynthErr]

/-- Witness for `synthesis_failure_preserves_translation` at a
concrete input with a succeeding translation and failing synthesis. -/
theorem synthesis_failure_preserves_translation_witness :
    trimChars stW.inputText ≠ [] ∧
    stW.inputText.length ≤ MAX_INPUT_LENGTH ∧
    ((runPipeline trX synBoom stW).final.result =
       some ⟨stW.inputText, ['X'], stW.selectedLanguage, none⟩ ∧
     (runPipeline trX synBoom stW).final.isProcessing = false ∧
     (runPipeline trX synBoom stW).final.error = some (synthesisErrMsg "noaudio") ∧
     (runPipeline trX synBoom stW).calls =
       [ServiceCall.translateCall stW.inputText stW.selectedLanguage,
        ServiceCall.synthesizeCall ['X']]) :=
  ⟨by decide, by decide,
   synthesis_failure_preserves_translation trX synBoom stW ['X'] "noaudio"
     (by decide) (by decide) rfl rfl⟩

theorem listMap_eq_self {α : Type} (l : List α) (f : α → α)
    (h : ∀ x ∈ l, f x = x) : l.map f = l := by
  induction l with
  | nil => rfl
  | cons a t ih =>
      rw [List.map_cons, h a (by simp), ih fun x hx => h x (by simp [hx])]

theorem resumeIfSuspended_ne_suspended (c : Option CtxRunState) :
    resumeIfSuspended c ≠ some CtxRunState.suspended := by
  rcases c with _ | c
  · simp [resumeIfSuspended]
  · cases c <;> simp [resumeIfSuspended]

theorem resumeIfSuspended_idem (c : Option CtxRunState) :
    resumeIfSuspended (resumeIfSuspended c) = resumeIfSuspended c := by
  rcases c with _ | c
  · rfl
  · cases c <;> rfl

/-- `stopAudio` in normal form: context resumed if it was suspended,
no bound source, the previously bound source detached and halted, both
flags cleared. -/
theorem stopAudio_eq (s : AudioState) :
    stopAudio s = ⟨resumeIfSuspended s.ctx, none,
                   stoppedSources s.boundSource s.sources, false, false, s.nextId⟩ := by
  rcases s with ⟨ctx, bound, l, ip, ipd, nid⟩
  have hmap : ∀ sid : Nat,
      List.map (fun x => if x.id = sid then { x with live := false } else x)
        (List.map (fun x => if x.id = sid then { x with onendedAttached := false } else x) l) =
      stoppedSources (some sid) l := by
    intro sid
    rw [List.map_map]
    show l.map _ = l.map _
    apply List.map_congr_left
    intro x _
    by_cases h : x.id = sid <;> simp [Function.comp, h]
  cases bound with
  | none =>
      rcases ctx with _ | c
      · simp [stopAudio, resumeIfSuspended, stoppedSources]
      · cases c <;> simp [stopAudio, resumeIfSuspended, stoppedSources]
  | some sid =>
      rcases ctx with _ | c
      · simp [stopAudio, detachOnended, haltSource, resumeIfSuspended, hmap sid]
      · cases c <;>
          simp [stopAudio, detachOnended, haltSource, resumeIfSuspended, hmap sid]

/-- `playAudio` in normal form: everything `stopAudio` did, plus a
fresh live source bound to the requested buffer with its natural-end
callback attached, and the playing flag set. -/
theorem playAudio_eq (b : Nat) (s : AudioState) :
    playAudio b s = ⟨resumeIfSuspended s.ctx, some s.nextId,
                     stoppedSources s.boundSource s.sources ++ [⟨s.nextId, b, true, true⟩],
                     true, false, s.nextId + 1⟩ := by
  unfold playAudio
  rw [stopAudio_eq]
  simp [resumeIfSuspended_ne_suspended s.ctx]

theorem stoppedSources_map_id (ob : Option Nat) (l : List Source) :
    (stoppedSources ob l).map (fun x => x.id) = l.map fun x => x.id := by
  cases ob with
  | none => rfl
  | some sid =>
      show (l.map _).map _ = _
      rw [List.map_map]
      apply List.map_congr_left
      intro x _
      by_cases h : x.id = sid <;> simp [Function.comp, h]

/-- Under the well-formedness invariant, no source is left live after
the bound source is halted. -/
theorem stoppedSources_no_live (s : AudioState) (h : wf s) :
    (stoppedSources s.boundSource s.sources).filter (fun x => x.live) = [] := by
  obtain ⟨-, -, hlive⟩ := h
  apply List.filter_eq_nil_iff.mpr
  cases hb : s.boundSource with
  | none =>
      intro x hx hxl
      have hx' : x ∈ s.sources := hx
      have := hlive x hx' hxl
      rw [hb] at this
      exact Option.noConfusion this
  | some sid =>
      intro x hx hxl
      have hx' : x ∈ s.sources.map fun y =>
          if y.id = sid then { y with onendedAttached := false, live := false } else y := hx
      obtain ⟨y, hy, rfl⟩ := List.mem_map.mp hx'
      by_cases hid : y.id = sid
      · simp [hid] at hxl
      · simp [hid] at hxl
        have := hlive y hy hxl
        rw [hb] at this
        exact hid (by injection this with hh; exact hh.symm)

theorem wf_playAudio (b : Nat) (s : AudioState) (h : wf s) : wf (playAudio b s) := by
  obtain ⟨hnd, hlt, hlive⟩ := h
  rw [playAudio_eq]
  refine ⟨?_, ?_, ?_⟩
  · show ((stoppedSources s.boundSource s.sources ++ [(⟨s.nextId, b, true, true⟩ : Source)]).map
      fun x => x.id).Nodup
    rw [List.map_append, stoppedSources_map_id]
    rw [List.nodup_append]
    refine ⟨hnd, List.nodup_singleton _, ?_⟩
    intro i hi hi'
    simp at hi'
    obtain ⟨y, hy, hyid⟩ := List.mem_map.mp hi
    subst hi'
    exact absurd (hlt y hy) (by omega)
  · intro x hx
    rcases List.mem_append.mp hx with h1 | h2
    · have hmem : x.id ∈ (stoppedSources s.boundSource s.sources).map fun z => z.id :=
        List.mem_map_of_mem _ h1
      rw [stoppedSources_map_id] at hmem
      obtain ⟨y, hy, hid⟩ := List.mem_map.mp hmem
      have := hlt y hy
      show x.id < s.nextId + 1
      omega
    · simp at h2
      subst h2
      show s.nextId < s.nextId + 1
      omega
  · intro x hx hxl
    rcases List.mem_append.mp hx with h1 | h2
    · exfalso
      have hnil := stoppedSources_no_live s ⟨hnd, hlt, hlive⟩
      have : x ∈ (stoppedSources s.boundSource s.sources).filter fun z => z.live :=
        List.mem_filter.mpr ⟨h1, by simpa using hxl⟩
      rw [hnil] at this
      exact absurd this (List.not_mem_nil x)
    · simp at h2
      subst h2
      rfl

/-- After `playAudio b`, the fresh source is the only live one. -/
theorem playAudio_live (b : Nat) (s : AudioState) (h : wf s) :
    liveSources (playAudio b s) = [⟨s.nextId, b, true, true⟩] := by
  rw [playAudio_eq]
  show (stoppedSources s.boundSource s.sources ++ [(⟨s.nextId, b, true, true⟩ : Source)]).filter
    (fun x => x.live) = _
  rw [List.filter_append, stoppedSources_no_live s h]
  rfl

/-- C5: starting playback always supersedes the previous source.  From
any well-formed state, one `start` leaves exactly one playing source
(bound to the requested buffer), and a second `start` with another
buffer leaves exactly the second buffer playing — never two
simultaneously playing sources. -/
theorem start_supersedes (s : AudioState) (b1 b2 : Nat) (h : wf s) :
    wf (playAudio b1 s) ∧
    liveBuffers (playAudio b1 s) = [b1] ∧
    wf (playAudio b2 (playAudio b1 s)) ∧
    liveBuffers (playAudio b2 (playAudio b1 s)) = [b2] ∧
    (liveSources (playAudio b2 (playAudio b1 s))).length = 1 := by
  have h1 := wf_playAudio b1 s h
  have h2 := wf_playAudio b2 _ h1
  have l1 := playAudio_live b1 s h
  have l2 := playAudio_live b2 _ h1
  refine ⟨h1, ?_, h2, ?_, ?_⟩
  · unfold liveBuffers
    rw [l1]
    rfl
  · unfold liveBuffers
    rw [l2]
    rfl
  · rw [l2]
    rfl

/-- Witness for `start_supersedes` from the initial playback state. -/
theorem start_supersedes_witness :
    wf initAudio ∧
    (wf (playAudio 1 initAudio) ∧
     liveBuffers (playAudio 1 initAudio) = [1] ∧
     wf (playAudio 2 (playAudio 1 initAudio)) ∧
     liveBuffers (playAudio 2 (playAudio 1 initAudio)) = [2] ∧
     (liveSources (playAudio 2 (playAudio 1 initAudio))).length = 1) :=
  ⟨by decide, start_supersedes initAudio 1 2 (by decide)⟩

/-- C10: selecting a target language stores it and clears the
previously published result, leaving the other state fields
untouched. -/
theorem select_language_clears_result (st : AppState) (lang : TargetLanguage) :
    (selectLanguage lang st).result = none ∧
    (selectLanguage lang st).selectedLanguage = lang ∧
    (selectLanguage lang st).inputText = st.inputText ∧
    (selectLanguage lang st).isProcessing = st.isProcessing ∧
    (selectLanguage lang st).error = st.error :=
  ⟨rfl, rfl, rfl, rfl, rfl⟩

/-- C6: an explicit stop detaches the natural-end callback before the
source is halted (after the detach step alone the callback is already
removed, while the source may still be live), every trace of the
bound source left by `stopAudio` is detached and halted, and a
late-firing natural-end notification for that source leaves the
post-stop state completely unchanged. -/
theorem stop_detaches_then_halts (s : AudioState) (sid : Nat)
    (hb : s.boundSource = some sid) :
    (∀ x ∈ (detachOnended sid s).sources, x.id = sid → x.onendedAttached = false) ∧
    (∀ x ∈ (stopAudio s).sources, x.id = sid →
       x.onendedAttached = false ∧ x.live = false) ∧
    naturalEnd sid (stopAudio s) = stopAudio s := by
  have hstop : (stopAudio s).sources = s.sources.map fun y =>
      if y.id = sid then { y with onendedAttached := false, live := false } else y := by
    rw [stopAudio_eq]
    show stoppedSources s.boundSource s.sources = _
    rw [hb]
    rfl
  have hkilled : ∀ x ∈ (stopAudio s).sources, x.id = sid →
      x.onendedAttached = false ∧ x.live = false := by
    intro x hx hid
    rw [hstop] at hx
    obtain ⟨y, hy, rfl⟩ := List.mem_map.mp hx
    by_cases h : y.id = sid
    · simp [h]
    · rw [if_neg h] at hid
      exact absurd hid h
  refine ⟨?_, hkilled, ?_⟩
  · intro x hx hid
    have hx' : x ∈ s.sources.map fun y =>
        if y.id = sid then { y with onendedAttached := false } else y := hx
    obtain ⟨y, hy, rfl⟩ := List.mem_map.mp hx'
    by_cases h : y.id = sid
    · simp [h]
    · rw [if_neg h] at hid
      exact absurd hid h
  · cases hf : (stopAudio s).sources.find? (fun x => x.id == sid) with
    | none => simp [naturalEnd, hf]
    | some src =>
        have hsrc := List.find?_some hf
        have hmem : src ∈ (stopAudio s).sources := List.mem_of_find?_eq_some hf
        have hid : src.id = sid := by simpa using hsrc
        obtain ⟨hatt, -⟩ := hkilled src hmem hid
        unfold naturalEnd
        simp only [hf, hatt]
        have hmapid : (stopAudio s).sources.map
            (fun x => if x.id = sid then { x with live := false } else x) =
            (stopAudio s).sources := by
          apply listMap_eq_self
          intro x hx
          by_cases h : x.id = sid
          · have hlv := (hkilled x hx h).2
            rw [if_pos h]
            rcases x with ⟨xi, xb, xa, xl⟩
            have hxl : xl = false := hlv
            subst hxl
            rfl
          · rw [if_neg h]
        rw [hmapid]
        simp

/-- Witness for `stop_detaches_then_halts` on a playing state. -/
theorem stop_detaches_then_halts_witness :
    replayAu.boundSource = some 0 ∧
    ((∀ x ∈ (detachOnended 0 replayAu).sources, x.id = 0 → x.onendedAttached = false) ∧
     (∀ x ∈ (stopAudio replayAu).sources, x.id = 0 →
        x.onendedAttached = false ∧ x.live = false) ∧
     naturalEnd 0 (stopAudio replayAu) = stopAudio replayAu) :=
  ⟨rfl, stop_detaches_then_halts replayAu 0 rfl⟩

/-- C7: `stopAudio` is idempotent, never errors, and always ends with
no bound source, both transport flags cleared, and a context that is
not left suspended (a suspended context is resumed so the device is
ready for the next start). -/
theorem stop_idempotent (s : AudioState) :
    stopAudio (stopAudio s) = stopAudio s ∧
    (stopAudio s).boundSource = none ∧
    (stopAudio s).isPlaying = false ∧
    (stopAudio s).isPaused = false ∧
    (stopAudio s).ctx ≠ some CtxRunState.suspended := by
  refine ⟨?_, ?_, ?_, ?_, ?_⟩
  · rw [stopAudio_eq s]
    rw [stopAudio_eq]
    simp only [resumeIfSuspended_idem]
    rfl
  · rw [stopAudio_eq]
  · rw [stopAudio_eq]
  · rw [stopAudio_eq]
  · rw [stopAudio_eq]
    exact resumeIfSuspended_ne_suspended s.ctx

/-- C8 counterexample: `handleReplay` contains no playback-in-progress
guard.  On a state whose playing flag is set it is still accepted and
restarts playback, refuting the claim that replay is accepted only
when playback is not in progress. -/
theorem replay_accepted_while_playing :
    replayAu.isPlaying = true ∧
    handleReplay replayApp replayAu = (playAudio 7 replayAu, []) ∧
    (handleReplay replayApp replayAu).1 ≠ replayAu := by
  decide

/-- C8 (amended): `handleReplay` is accepted exactly when the
published result carries a decoded buffer and the device context
exists; it then behaves exactly like `playAudio` on the current
buffer, calling neither collaborator; it does not itself require that
playback be stopped — only the rendered replay control is restricted
to the not-playing, not-paused state. -/
theorem replay_guard_spec :
    (∀ (app : AppState) (au : AudioState) (r : TranslationResult) (b : Nat),
       app.result = some r → r.audioBuffer = some b → au.ctx.isSome = true →
       handleReplay app au = (playAudio b au, [])) ∧
    (∀ (app : AppState) (au : AudioState),
       app.result = none → handleReplay app au = (au, [])) ∧
    (∀ (app : AppState) (au : AudioState) (r : TranslationResult),
       app.result = some r → r.audioBuffer = none → handleReplay app au = (au, [])) ∧
    (∀ (app : AppState) (au : AudioState),
       au.ctx = none → handleReplay app au = (au, [])) ∧
    (∀ (app : AppState) (playing paused : Bool),
       replayButtonVisible app playing paused = true →
       playing = false ∧ paused = false) := by
  refine ⟨?_, ?_, ?_, ?_, ?_⟩
  · intro app au r b hr hb hctx
    obtain ⟨c, hc⟩ := Option.isSome_iff_exists.mp hctx
    unfold handleReplay
    simp only [hr, hb, hc]
  · intro app au h
    unfold handleReplay
    simp only [h]
  · intro app au r hr hb
    unfold handleReplay
    simp only [hr, hb]
  · intro app au h
    cases hres : app.result with
    | none =>
        unfold handleReplay
        simp only [hres]
    | some r =>
        cases hbuf : r.audioBuffer with
        | none =>
            unfold handleReplay
            simp only [hres, hbuf]
        | some b =>
            unfold handleReplay
            simp only [hres, hbuf, h]
  · intro app playing paused h
    unfold replayButtonVisible at h
    cases hres : app.result with
    | none =>
        rw [hres] at h
        exact absurd h (by simp)
    | some r =>
        rw [hres] at h
        simp only [Bool.and_eq_true, Bool.not_eq_true'] at h
        exact ⟨h.1.2, h.2⟩

/-- Witness for `replay_guard_spec`: replay on an idle state with a
bound decoded buffer behaves as a start of that buffer. -/
theorem replay_guard_spec_witness :
    replayApp.result = some ⟨['a'], ['X'], .chinese, some 7⟩ ∧
    handleReplay replayApp replayAuIdle = (playAudio 7 replayAuIdle, []) :=
  ⟨rfl, replay_guard_spec.1 replayApp replayAuIdle ⟨['a'], ['X'], .chinese, some 7⟩ 7
    rfl rfl rfl⟩

/-- C9 counterexample: the teardown guards only on the existence of
the context, not on its being already closed.  Running the cleanup on
a state whose context is already closed attempts a second
`AudioContext.close()`, which fails with `InvalidStateError` — it is
not a no-op.  (In one mounted session the framework invokes the
cleanup once, so the first close succeeds.) -/
theorem double_teardown_errors :
    cleanup replayAuIdle = .ok auClosed ∧
    cleanup auClosed = .error "InvalidStateError" :=
  ⟨rfl, rfl⟩

theorem getAudioContext_ctx_isSome (s : AudioState) :
    (getAudioContext s).ctx.isSome = true := by
  unfold getAudioContext
  by_cases h : s.ctx = none
  · rw [if_pos h]
    rfl
  · rw [if_neg h]
    rcases hc : s.ctx with _ | c
    · exact absurd hc h
    · rfl

theorem getAudioContext_eq_self (s : AudioState) (h : s.ctx ≠ none) :
    getAudioContext s = s := by
  unfold getAudioContext
  rw [if_neg h]

/-- C9 (amended): the device context is created lazily and `init` is
idempotent — after one `getAudioContext` a context exists, a second
call returns the state unchanged and never creates a second context;
the teardown stops audio and closes an open context (transitioning it
to `closed`); it contains no guard for an already-closed context (see
the accompanying counterexample for the double-close error). -/
theorem ctx_lifecycle :
    (∀ s : AudioState, (getAudioContext s).ctx.isSome = true) ∧
    (∀ s : AudioState, getAudioContext (getAudioContext s) = getAudioContext s) ∧
    (∀ s : AudioState, s.ctx.isSome = true → getAudioContext s = s) ∧
    (∀ (s : AudioState) (c : CtxRunState), s.ctx = some c → c ≠ CtxRunState.closed →
       cleanup s = .ok { stopAudio s with ctx := some CtxRunState.closed }) := by
  refine ⟨getAudioContext_ctx_isSome, ?_, ?_, ?_⟩
  · intro s
    apply getAudioContext_eq_self
    intro hnone
    have hs := getAudioContext_ctx_isSome s
    rw [hnone] at hs
    exact Bool.noConfusion hs
  · intro s hsome
    apply getAudioContext_eq_self
    intro hnone
    rw [hnone] at hsome
    exact Bool.noConfusion hsome
  · intro s c hc hcc
    have hctx : (stopAudio s).ctx = resumeIfSuspended s.ctx := by rw [stopAudio_eq]
    rw [hc] at hctx
    unfold cleanup
    cases c with
    | closed => exact absurd rfl hcc
    | running =>
        have h2 : (stopAudio s).ctx = some CtxRunState.running := hctx
        simp only [h2]
        rfl
    | suspended =>
        have h2 : (stopAudio s).ctx = some CtxRunState.running := hctx
        simp only [h2]
        rfl

/-- Witness for `ctx_lifecycle` at concrete states. -/
theorem ctx_lifecycle_witness :
    getAudioContext (getAudioContext initAudio) = getAudioContext initAudio ∧
    replayAuIdle.ctx.isSome = true ∧
    getAudioContext replayAuIdle = replayAuIdle ∧
    cleanup replayAuIdle = .ok { stopAudio replayAuIdle with ctx := some CtxRunState.closed } :=
  ⟨ctx_lifecycle.2.1 initAudio, rfl, ctx_lifecycle.2.2.1 replayAuIdle rfl,
   ctx_lifecycle.2.2.2 replayAuIdle .running rfl (by decide)⟩

end SafeSpeak
